import Mathlib

/-!
Verification of the dayu-sch round orchestrator, session state machine,
failure classifier and identity rotator, as a shallow embedding of the Go
sources (`internal/pkg/app/batchproxyplay/main.go` and the `pragmatic`
protocol client).  Monetary values (Go `float64`) are modelled as rationals;
the comparisons the program performs on them are order comparisons against
decimal literals, which rationals reproduce exactly.  Go `int` is modelled
as `Int` (no overflow occurs in the quantities involved).
-/

namespace DayuSch

/-! ### Failure classifier (worker-level quarantine decision)

From `Run`: a worker sets `shouldBlockProxy := true` when the batch-claim
call returned an error, and otherwise counts `failedCount` of responses with
`Status == false`; if `totalCount > 0` and `failedCount/totalCount >= 0.5`
it also sets `shouldBlockProxy := true`. -/

/-- Number of batch responses whose `Status` field is `false`. -/
def failedCount (statuses : List Bool) : Nat :=
  (statuses.filter (fun s => !s)).length

/-- `failed / total` as a rational, `0` when there are no responses
(the source only computes the rate under a `totalCount > 0` guard). -/
def failureRate (statuses : List Bool) : ℚ :=
  if statuses.length = 0 then 0
  else (failedCount statuses : ℚ) / (statuses.length : ℚ)

/-- The worker's quarantine decision: batch-claim error, or
failure rate at least one half over a non-empty batch. -/
def shouldBlockProxy (batchErr : Bool) (statuses : List Bool) : Bool :=
  batchErr || (decide (0 < statuses.length) && decide ((1 : ℚ)/2 ≤ failureRate statuses))

/-! ### Progressive wager logic

From the `ACTING` loop: `amount := 400`, raised to 600/800/1000 on the
balance brackets `(10000,30000]`, `(30000,50000]`, `(50000,100000]`;
`coinValue := int(amount / 20.0)`. -/

/-- Wager amount chosen from the balance bracket. -/
def wagerAmount (balance : ℚ) : ℚ :=
  if 10000 < balance ∧ balance ≤ 30000 then 600
  else if 30000 < balance ∧ balance ≤ 50000 then 800
  else if 50000 < balance ∧ balance ≤ 100000 then 1000
  else 400

/-- Discrete unit count sent with an act request: the wager amount divided
by 20 and truncated to an integer (`int(amount / 20.0)`; the amounts are all
multiples of 20, so the truncation is exact). -/
def coinValue (balance : ℚ) : ℤ :=
  ⌊wagerAmount balance / 20⌋

namespace Session

/-! ### Session state machine (`ACTING` loop)

From `Run`'s per-unit goroutine (`pragmatic.NewPragmaticPlay` session): after
`DoInit` succeeds the unit keeps `index = initRes.Index + 1`,
`counter = initRes.Counter + 1` and the latest reply, then loops:

* if `NextAction == "s"` and the balance is at most 500 or at least 100000:
  one `UpdateUserBalance` call with the current balance, then the loop ends
  (`break` on success, or an early `return` when the update call fails);
* otherwise compute coin from the wager bracket; if `NextAction == "s"`,
  issue `DoSpin(coin, index, counter)`; on success thread
  `index := reply.Index + 1`, `counter := reply.Counter + 1` and replace the
  local state with the reply; then, if the (possibly updated) state has
  `NextAction == "c"`, issue `DoCollect(index, counter)` with the same
  threading rule; any request failure ends the unit; sleep 32 ms; repeat.

The remote service is an oracle: `oracle` lists the successful replies it
returns, in order; a request made when the oracle is exhausted is the one
that fails (the unit aborts).  `updOk` is the outcome of the single
`UpdateUserBalance` call.  The fuel-indexed runner returns `none` when the
loop has not reached any exit within the given number of iterations. -/

/-- A parsed `gameService` reply (`pragmatic.ResponseData`). -/
structure ResponseData where
  index      : Int
  counter    : Int
  balance    : ℚ
  nextAction : String
  totalWin   : ℚ
deriving DecidableEq, Repr

/-- Local state of one unit inside the `ACTING` loop: the threaded
index/counter and the last reply received. -/
structure LoopState where
  index   : Int
  counter : Int
  data    : ResponseData
deriving DecidableEq, Repr

/-- Requests the loop issues to the outside world. -/
inductive Event where
  | spin (c index counter : Int)
  | collect (index counter : Int)
  | updateBalance (balance : ℚ)
deriving DecidableEq, Repr

/-- How a unit's loop ended: `terminated` through the threshold `break`,
`aborted` through an early `return` on a failed request. -/
inductive Outcome where
  | terminated
  | aborted
deriving DecidableEq, Repr

/-- The balance-threshold test guarding termination:
`NextAction == "s" && (Balance <= 500.0 || Balance >= 100_000.0)`. -/
def thresholdReached (d : ResponseData) : Bool :=
  d.nextAction == "s" && (decide (d.balance ≤ 500) || decide ((100000 : ℚ) ≤ d.balance))

/-- One-or-more iterations of the `ACTING` loop, with `fuel` bounding the
number of iterations; `none` means the loop was still running when the fuel
ran out.  Each iteration follows the source order: threshold check, wager
computation, act (`"s"`) phase, advance (`"c"`) phase on the updated state,
then the next iteration. -/
def runLoop (updOk : Bool) : Nat → LoopState → List ResponseData →
    Option (List Event × Outcome)
  | 0, _, _ => none
  | Nat.succ n, st, oracle =>
    if thresholdReached st.data then
      some ([Event.updateBalance st.data.balance],
            if updOk then Outcome.terminated else Outcome.aborted)
    else
      let p1 : (List Event × Outcome) ⊕ (List Event × LoopState × List ResponseData) :=
        if st.data.nextAction == "s" then
          match oracle with
          | [] => Sum.inl ([Event.spin (coinValue st.data.balance) st.index st.counter],
                           Outcome.aborted)
          | r :: rest =>
            Sum.inr ([Event.spin (coinValue st.data.balance) st.index st.counter],
                     ⟨r.index + 1, r.counter + 1, r⟩, rest)
        else Sum.inr ([], st, oracle)
      match p1 with
      | Sum.inl res => some res
      | Sum.inr (evs1, st1, or1) =>
        let p2 : (List Event × Outcome) ⊕ (List Event × LoopState × List ResponseData) :=
          if st1.data.nextAction == "c" then
            match or1 with
            | [] => Sum.inl (evs1 ++ [Event.collect st1.index st1.counter], Outcome.aborted)
            | r :: rest =>
              Sum.inr (evs1 ++ [Event.collect st1.index st1.counter],
                       ⟨r.index + 1, r.counter + 1, r⟩, rest)
          else Sum.inr (evs1, st1, or1)
        match p2 with
        | Sum.inl res => some res
        | Sum.inr (evs2, st2, or2) =>
          match runLoop updOk n st2 or2 with
          | none => none
          | some (evs, out) => some (evs2 ++ evs, out)

/-- The `(index, counter)` pair carried by each act/advance request, in the
order the requests are issued. -/
def requestClocks : List Event → List (Int × Int)
  | [] => []
  | Event.spin _ i c :: es => (i, c) :: requestClocks es
  | Event.collect i c :: es => (i, c) :: requestClocks es
  | Event.updateBalance _ :: es => requestClocks es

/-- The index/counter pair the client derives from a reply:
`(reply.Index + 1, reply.Counter + 1)`. -/
def nextClock (r : ResponseData) : Int × Int :=
  (r.index + 1, r.counter + 1)

/-- The remote contract the spec attributes to the service ("out-of-order or
stale indices are rejected"): each successful reply carries an index/counter
at least as large as the request it answers. -/
def chainOK : Int → Int → List ResponseData → Prop
  | _, _, [] => True
  | i, c, r :: rs => i ≤ r.index ∧ c ≤ r.counter ∧ chainOK (r.index + 1) (r.counter + 1) rs

end Session

/-! ### Worker fan-out over one batch

From `Run`: after a successful batch-claim, each response is handed to its
own goroutine, which (a) atomically increments the shared `failedCount` when
`resp.Status` is false, and (b) when `resp.Link != nil`, runs the session
state machine for that unit; a failed request makes that goroutine `return`.
The goroutines share no other state; after `responseWg.Wait()` the worker
computes the failure rate over all responses.  The model below is the
(non-cancelled) denotation of that fan-out: one independent result per
unit, plus the classification over all statuses. -/

namespace Worker

open Session

/-- Everything one unit's session run consumes from the outside world:
the establish/init outcome (`none` when `LoadSession`/`DoInit` fails or
yields no session), the successful act/advance replies, the outcome of the
one balance update, and the iteration bound. -/
structure SessionOracle where
  initRes : Option ResponseData
  replies : List ResponseData
  updOk   : Bool
  fuel    : Nat
deriving DecidableEq, Repr

/-- One claimable unit as the worker sees it: the batch-reported status and,
when a session link is present, the unit's session oracle. -/
structure UnitWork where
  status : Bool
  link   : Option SessionOracle
deriving DecidableEq, Repr

/-- Run one unit's session: nothing without a link; otherwise start the
`ACTING` loop from `index = initRes.Index + 1`, `counter = initRes.Counter + 1`. -/
def runUnit (o : SessionOracle) : Option (List Event × Outcome) :=
  match o.initRes with
  | none => none
  | some r0 => runLoop o.updOk o.fuel ⟨r0.index + 1, r0.counter + 1, r0⟩ o.replies

/-- The per-unit goroutine: contributes `!status` to the failure counter and
runs the session when a link is present. -/
def processUnit (u : UnitWork) : Bool × Option (Option (List Event × Outcome)) :=
  (!u.status, u.link.map runUnit)

/-- The worker's whole batch phase: every unit is processed, then the
quarantine decision is computed from all statuses (batch-claim succeeded,
so the error flag is false). -/
def processWorker (units : List UnitWork) :
    List (Bool × Option (Option (List Event × Outcome))) × Bool :=
  (units.map processUnit, shouldBlockProxy false (units.map (fun u => u.status)))

end Worker

/-! ### Identity rotator

From `GetNextUserAgent`: under a mutex, return `userAgents[userAgentIndex]`
and set `userAgentIndex := (userAgentIndex + 1) % len(userAgents)`. -/

namespace Rotator

/-- One call: the identity at the cursor, and the advanced cursor. -/
def nextUA (uas : List String) (idx : Nat) : String × Nat :=
  (uas.getD idx "", (idx + 1) % uas.length)

/-- The identities returned by `n` consecutive calls starting at cursor `idx`. -/
def rotatorRun (uas : List String) : Nat → Nat → List String
  | 0, _ => []
  | Nat.succ n, idx => (nextUA uas idx).1 :: rotatorRun uas n (nextUA uas idx).2

end Rotator

/-! ### Establish step (`pragmatic.LoadSession`) and `DoInit` request

`LoadSession` sets `req.NoRedirectPolicy()` on the client, issues the GET,
and reads the `location` header: an empty header yields `(nil, nil)`; a
present header is parsed as a URL and the session key is its `mgckey` query
parameter.  The URL-parsing boundary (`net/url`) is modelled by taking the
redirect target already in parsed form. -/

namespace Protocol

/-- A parsed redirect target: host and query parameters, in order. -/
structure Url where
  host  : String
  query : List (String × String)
deriving DecidableEq, Repr

/-- `u.Query().Get(key)`: the first value for `key`, or `""`. -/
def getQueryParam (u : Url) (key : String) : String :=
  match u.query.find? (fun p => p.1 == key) with
  | some p => p.2
  | none => ""

/-- The establish response as `LoadSession` consumes it: `none` models an
absent (empty) `location` header. -/
structure HttpResponse where
  location : Option Url
deriving DecidableEq, Repr

/-- `pragmatic.SessionData`. -/
structure SessionData where
  redirectURL : Url
  mgcKey      : String
deriving DecidableEq, Repr

/-- The client's redirect policy during the establish request:
`req.NoRedirectPolicy()`, i.e. redirects are not followed. -/
def loadSessionFollowsRedirects : Bool := false

/-- `LoadSession`: transport errors propagate; no `location` header yields an
empty result with no error; otherwise the session key is the `mgckey` query
parameter of the redirect target. -/
def loadSession (resp : Except String HttpResponse) :
    Except String (Option SessionData) :=
  match resp with
  | Except.error e => Except.error e
  | Except.ok r =>
    match r.location with
    | none => Except.ok none
    | some u => Except.ok (some ⟨u, getQueryParam u "mgckey"⟩)

/-- The form fields `DoInit` posts to `/gs2c/ge/v4/gameService`. -/
def doInitForm (mgckey symbol : String) : List (String × String) :=
  [("action", "doInit"), ("symbol", symbol), ("cver", "339188"),
   ("index", "1"), ("counter", "1"), ("repeat", "0"), ("mgckey", mgckey)]

/-- Look a field up in a posted form. -/
def formLookup (form : List (String × String)) (key : String) : Option String :=
  (form.find? (fun p => p.1 == key)).map (fun p => p.2)

end Protocol

/-! ### Cancellation structure of the orchestrator

A structural transcription of `Run` (the variant with the shared
`rootCtx`/`rootCancel` cancellation signal): every point where the
orchestrator, a worker, or a unit goroutine blocks or checks for shutdown,
together with the context it uses.  `background` is `context.Background()`,
`rootDerived` is `rootCtx` or a `context.WithTimeout(rootCtx, _)` child. -/

namespace Cancel

inductive CtxKind where
  | background
  | rootDerived
deriving DecidableEq, Repr

inductive WaitKind where
  /-- A blocking call that takes a context (semaphore `Acquire`, network call). -/
  | ctxWait (k : CtxKind)
  /-- A `select` on `rootCtx.Done()` against a timer. -/
  | selectDone
  /-- A non-blocking `select` on `rootCtx.Done()` with a `default` branch. -/
  | doneCheck
  /-- A plain `time.Sleep`. -/
  | plainSleep
  /-- A loop iteration boundary with no shutdown check. -/
  | noCheck
deriving DecidableEq, Repr

structure SuspensionPoint where
  name : String
  kind : WaitKind
deriving DecidableEq, Repr

/-- Whether the point observes the shared cancellation signal. -/
def observesCancellation (p : SuspensionPoint) : Bool :=
  match p.kind with
  | WaitKind.ctxWait CtxKind.rootDerived => true
  | WaitKind.selectDone => true
  | WaitKind.doneCheck => true
  | _ => false

/-- The suspension/check points of `Run`, in source order:
round-loop head check; `GetProxies` with `WithTimeout(rootCtx, 30s)`; the
two backoff delays as `select` on `rootCtx.Done()`; the worker spawn loop
(no shutdown check between spawns); the worker's
`sem.Acquire(context.Background(), 1)`; `GetBatchLink` with
`WithTimeout(rootCtx, 30s)`; the unit goroutine's head check;
`responseSem.Acquire(rootCtx, 1)`; the protocol calls through
`NewPragmaticPlay(rootCtx, ...)` (`SetContext(pp.ctx)`); the `ACTING` loop
head check; `UpdateUserBalance` with `WithTimeout(rootCtx, 30s)`;
`time.Sleep(32 * time.Millisecond)`; `BlockProxy` with
`WithTimeout(rootCtx, 30s)`; the inter-round delay as `select` on
`rootCtx.Done()`. -/
def runSuspensionPoints : List SuspensionPoint :=
  [ ⟨"roundLoopDoneCheck", WaitKind.doneCheck⟩
  , ⟨"getProxies", WaitKind.ctxWait CtxKind.rootDerived⟩
  , ⟨"proxyErrorBackoffDelay", WaitKind.selectDone⟩
  , ⟨"noProxiesBackoffDelay", WaitKind.selectDone⟩
  , ⟨"workerSpawnLoop", WaitKind.noCheck⟩
  , ⟨"workerSemAcquire", WaitKind.ctxWait CtxKind.background⟩
  , ⟨"batchClaim", WaitKind.ctxWait CtxKind.rootDerived⟩
  , ⟨"unitDoneCheck", WaitKind.doneCheck⟩
  , ⟨"responseSemAcquire", WaitKind.ctxWait CtxKind.rootDerived⟩
  , ⟨"sessionProtocolCalls", WaitKind.ctxWait CtxKind.rootDerived⟩
  , ⟨"actingLoopDoneCheck", WaitKind.doneCheck⟩
  , ⟨"updateBalance", WaitKind.ctxWait CtxKind.rootDerived⟩
  , ⟨"stepPacingSleep", WaitKind.plainSleep⟩
  , ⟨"blockProxy", WaitKind.ctxWait CtxKind.rootDerived⟩
  , ⟨"interRoundDelay", WaitKind.selectDone⟩ ]

/-- Workers spawned in one round: the spawn loop breaks once
`i >= maxConcurrent`, so at most `min (number of proxies) maxConcurrent`. -/
def workersSpawned (numProxies maxConcurrent : Nat) : Nat :=
  min numProxies maxConcurrent

/-- Permits of the worker semaphore: `semaphore.NewWeighted(int64(maxConcurrent))`. -/
def workerSemPermits (maxConcurrent : Nat) : Nat := maxConcurrent

end Cancel

end DayuSch

namespace DayuSch

/-- C1 helper fact: for a non-empty batch the rate test agrees with the
integer comparison `2 * failed ≥ total`. -/
theorem failureRate_ge_half_iff (sts : List Bool) (h : 0 < sts.length) :
    (1 : ℚ)/2 ≤ failureRate sts ↔ sts.length ≤ 2 * failedCount sts := by
  have hne : (sts.length : ℚ) ≠ 0 := by
    exact_mod_cast Nat.pos_iff_ne_zero.mp h
  have hpos : (0 : ℚ) < (sts.length : ℚ) := by exact_mod_cast h
  unfold failureRate
  rw [if_neg (Nat.pos_iff_ne_zero.mp h)]
  rw [div_le_div_iff (by norm_num) hpos]
  constructor
  · intro hle
    have : (sts.length : ℚ) ≤ 2 * (failedCount sts : ℚ) := by linarith
    exact_mod_cast this
  · intro hle
    have : (sts.length : ℚ) ≤ 2 * (failedCount sts : ℚ) := by exact_mod_cast hle
    linarith

/-- Helper: the quarantine decision, characterised. -/
theorem shouldBlockProxy_iff (e : Bool) (sts : List Bool) :
    shouldBlockProxy e sts = true ↔
      e = true ∨ (0 < sts.length ∧
        (1 : ℚ)/2 ≤ (failedCount sts : ℚ) / (sts.length : ℚ)) := by
  unfold shouldBlockProxy failureRate
  rcases Nat.eq_zero_or_pos sts.length with h0 | hp
  · simp [h0]
  · have hne : sts.length ≠ 0 := Nat.pos_iff_ne_zero.mp hp
    simp [hne, hp]

/-- C1: a worker quarantines its proxy exactly when the batch-claim call
errored, or the batch is non-empty and the failed fraction is at least one
half; 5 failures out of 10 trigger it, 4 out of 10 do not, and an empty
batch never does (its failure rate is taken as 0). -/
theorem quarantine_decision :
    (∀ (e : Bool) (sts : List Bool),
      shouldBlockProxy e sts = true ↔
        e = true ∨ (0 < sts.length ∧
          (1 : ℚ)/2 ≤ (failedCount sts : ℚ) / (sts.length : ℚ)))
    ∧ shouldBlockProxy false (List.replicate 5 false ++ List.replicate 5 true) = true
    ∧ shouldBlockProxy false (List.replicate 4 false ++ List.replicate 6 true) = false
    ∧ (∀ e : Bool, shouldBlockProxy e [] = e)
    ∧ failureRate [] = 0 := by
  refine ⟨shouldBlockProxy_iff, ?_, ?_, ?_, rfl⟩
  · apply (shouldBlockProxy_iff _ _).mpr
    refine Or.inr ⟨by decide, ?_⟩
    have hf : failedCount (List.replicate 5 false ++ List.replicate 5 true) = 5 := by decide
    have hl : (List.replicate 5 false ++ List.replicate 5 true).length = 10 := by decide
    rw [hf, hl]
    norm_num
  · cases hb : shouldBlockProxy false (List.replicate 4 false ++ List.replicate 6 true)
    · rfl
    · exfalso
      rcases (shouldBlockProxy_iff _ _).mp hb with h | ⟨-, h⟩
      · exact Bool.false_ne_true h
      · have hf : failedCount (List.replicate 4 false ++ List.replicate 6 true) = 4 := by decide
        have hl : (List.replicate 4 false ++ List.replicate 6 true).length = 10 := by decide
        rw [hf, hl] at h
        norm_num at h
  · intro e; cases e <;> rfl

/-- C1 witness: the concrete 5-of-10 and 4-of-10 batches. -/
theorem quarantine_decision_witness :
    shouldBlockProxy false (List.replicate 5 false ++ List.replicate 5 true) = true
    ∧ shouldBlockProxy false (List.replicate 4 false ++ List.replicate 6 true) = false :=
  ⟨quarantine_decision.2.1, quarantine_decision.2.2.1⟩

/-- Helper for the base wager bracket. -/
theorem wagerAmount_base (b : ℚ) (h : b ≤ 10000 ∨ 100000 < b) : wagerAmount b = 400 := by
  unfold wagerAmount
  rcases h with h | h <;> split_ifs with h1 h2 h3 <;>
    first
      | rfl
      | (exfalso; rcases h1 with ⟨ha, hb⟩; linarith)
      | (exfalso; rcases h2 with ⟨ha, hb⟩; linarith)
      | (exfalso; rcases h3 with ⟨ha, hb⟩; linarith)

/-- Helper for the first raised bracket. -/
theorem wagerAmount_tier1 (b : ℚ) (h1 : 10000 < b) (h2 : b ≤ 30000) :
    wagerAmount b = 600 := by
  unfold wagerAmount
  rw [if_pos ⟨h1, h2⟩]

/-- Helper for the second raised bracket. -/
theorem wagerAmount_tier2 (b : ℚ) (h1 : 30000 < b) (h2 : b ≤ 50000) :
    wagerAmount b = 800 := by
  unfold wagerAmount
  rw [if_neg (by rintro ⟨-, hb⟩; linarith), if_pos ⟨h1, h2⟩]

/-- Helper for the third raised bracket. -/
theorem wagerAmount_tier3 (b : ℚ) (h1 : 50000 < b) (h2 : b ≤ 100000) :
    wagerAmount b = 1000 := by
  unfold wagerAmount
  rw [if_neg (by rintro ⟨-, hb⟩; linarith), if_neg (by rintro ⟨-, hb⟩; linarith),
    if_pos ⟨h1, h2⟩]

/-- C7: the wager amount follows the balance brackets (half-open below,
closed above), with base amount 400 outside them; 35000 maps to 800 and 500
to 400; the discrete coin count equals the amount divided by 20 (the
truncation in `int(amount / 20.0)` is exact); and the bracket map is
monotone on balances up to 100000. -/
theorem wager_tiering :
    (∀ b : ℚ, b ≤ 10000 ∨ 100000 < b → wagerAmount b = 400)
    ∧ (∀ b : ℚ, 10000 < b → b ≤ 30000 → wagerAmount b = 600)
    ∧ (∀ b : ℚ, 30000 < b → b ≤ 50000 → wagerAmount b = 800)
    ∧ (∀ b : ℚ, 50000 < b → b ≤ 100000 → wagerAmount b = 1000)
    ∧ wagerAmount 35000 = 800
    ∧ wagerAmount 500 = 400
    ∧ (∀ b : ℚ, (coinValue b : ℚ) = wagerAmount b / 20)
    ∧ (∀ b c : ℚ, b ≤ c → c ≤ 100000 → wagerAmount b ≤ wagerAmount c) := by
  refine ⟨wagerAmount_base, wagerAmount_tier1, wagerAmount_tier2, wagerAmount_tier3,
    wagerAmount_tier2 _ (by norm_num) (by norm_num),
    wagerAmount_base _ (Or.inl (by norm_num)), ?_, ?_⟩
  · intro b
    unfold coinValue wagerAmount
    split_ifs <;> norm_num
  · intro b c hbc hc
    rcases le_or_lt c 10000 with h1 | h1
    · rw [wagerAmount_base b (Or.inl (hbc.trans h1)), wagerAmount_base c (Or.inl h1)]
    · rcases le_or_lt c 30000 with h2 | h2
      · rw [wagerAmount_tier1 c h1 h2]
        rcases le_or_lt b 10000 with hb1 | hb1
        · rw [wagerAmount_base b (Or.inl hb1)]; norm_num
        · rw [wagerAmount_tier1 b hb1 (hbc.trans h2)]
      · rcases le_or_lt c 50000 with h3 | h3
        · rw [wagerAmount_tier2 c h2 h3]
          rcases le_or_lt b 10000 with hb1 | hb1
          · rw [wagerAmount_base b (Or.inl hb1)]; norm_num
          · rcases le_or_lt b 30000 with hb2 | hb2
            · rw [wagerAmount_tier1 b hb1 hb2]; norm_num
            · rw [wagerAmount_tier2 b hb2 (hbc.trans h3)]
        · rw [wagerAmount_tier3 c h3 hc]
          rcases le_or_lt b 10000 with hb1 | hb1
          · rw [wagerAmount_base b (Or.inl hb1)]; norm_num
          · rcases le_or_lt b 30000 with hb2 | hb2
            · rw [wagerAmount_tier1 b hb1 hb2]; norm_num
            · rcases le_or_lt b 50000 with hb3 | hb3
              · rw [wagerAmount_tier2 b hb2 hb3]; norm_num
              · rw [wagerAmount_tier3 b hb3 (hbc.trans hc)]

/-- C7 witness: the concrete balances 35000, 500 and 200000, and the exact
coin division at 35000. -/
theorem wager_tiering_witness :
    wagerAmount 35000 = 800
    ∧ wagerAmount 500 = 400
    ∧ wagerAmount 200000 = 400
    ∧ (coinValue 35000 : ℚ) = wagerAmount 35000 / 20 :=
  ⟨wager_tiering.2.2.2.2.1, wager_tiering.2.2.2.2.2.1,
   wager_tiering.1 200000 (Or.inr (by norm_num)),
   wager_tiering.2.2.2.2.2.2.1 35000⟩

end DayuSch

namespace DayuSch.Session

/-- C2: a session whose state has `pendingAction = "s"` and balance at most
500 or at least 100000 terminates at once: the `ACTING` loop issues exactly
one `UpdateBalance` call carrying that terminal balance and no act or
advance request, for every fuel bound, oracle, and update outcome (the
balance-at-least-100000 jackpot case uses the same path). -/
theorem threshold_termination (updOk : Bool) (n : Nat) (st : LoopState)
    (oracle : List ResponseData)
    (hs : st.data.nextAction = "s")
    (hb : st.data.balance ≤ 500 ∨ (100000 : ℚ) ≤ st.data.balance) :
    runLoop updOk (n + 1) st oracle =
      some ([Event.updateBalance st.data.balance],
        if updOk then Outcome.terminated else Outcome.aborted) := by
  have ht : thresholdReached st.data = true := by
    unfold thresholdReached
    rw [hs]
    rcases hb with hb | hb <;> simp [hb]
  show runLoop updOk (Nat.succ n) st oracle = _
  unfold runLoop
  rw [if_pos ht]

/-- C2 witness: a concrete state at the jackpot bound terminates with the
single balance update. -/
theorem threshold_termination_witness :
    runLoop true 1 ⟨2, 2, ⟨1, 1, 100000, "s", 0⟩⟩ [] =
      some ([Event.updateBalance 100000], Outcome.terminated) :=
  threshold_termination true 0 ⟨2, 2, ⟨1, 1, 100000, "s", 0⟩⟩ [] rfl
    (Or.inr (by decide))

/-- C4 (behaviour at the failing input): when the pending action is neither
the act code `"s"` nor the advance code `"c"`, the `ACTING` loop never
terminates: it makes no request and reaches no exit under any fuel bound,
contrary to the specified "loop while" exit condition. -/
theorem acting_loop_no_exit (updOk : Bool) (st : LoopState)
    (oracle : List ResponseData)
    (hs : st.data.nextAction ≠ "s") (hc : st.data.nextAction ≠ "c") :
    ∀ n, runLoop updOk n st oracle = none := by
  intro n
  induction n with
  | zero => rfl
  | succ n ih =>
    have hbs : (st.data.nextAction == "s") = false := beq_eq_false_iff_ne.mpr hs
    have hbc : (st.data.nextAction == "c") = false := beq_eq_false_iff_ne.mpr hc
    have ht : thresholdReached st.data = false := by
      unfold thresholdReached
      rw [hbs, Bool.false_and]
    show runLoop updOk (Nat.succ n) st oracle = none
    unfold runLoop
    rw [if_neg (by simp [ht]), hbs]
    simp only [Bool.false_eq_true, if_false, hbc, ih]

/-- C4 witness: a concrete stuck state (the parse default `""` next-action)
under fuel 5. -/
theorem acting_loop_no_exit_witness :
    runLoop true 5 ⟨2, 2, ⟨1, 1, 1000, "", 0⟩⟩ [] = none :=
  acting_loop_no_exit true ⟨2, 2, ⟨1, 1, 1000, "", 0⟩⟩ []
    (by decide) (by decide) 5

/-- Request clocks distribute over concatenated event lists. -/
theorem requestClocks_append (a b : List Event) :
    requestClocks (a ++ b) = requestClocks a ++ requestClocks b := by
  induction a with
  | nil => rfl
  | cons e es ih => cases e <;> simp [requestClocks, ih]

/-- Threading invariant of the `ACTING` loop: in any completed run, the
`(index, counter)` pairs carried by the act/advance requests are, in order,
an initial segment of the starting pair followed by `reply + 1` for each
oracle reply. -/
theorem runLoop_requestClocks (updOk : Bool) :
    ∀ (n : Nat) (st : LoopState) (oracle : List ResponseData)
      (evs : List Event) (out : Outcome),
      runLoop updOk n st oracle = some (evs, out) →
      ∃ k, requestClocks evs =
        ((st.index, st.counter) :: oracle.map nextClock).take k := by
  intro n
  induction n with
  | zero =>
    intro st oracle evs out h
    simp [runLoop] at h
  | succ n ih =>
    intro st oracle evs out h
    unfold runLoop at h
    cases hth : thresholdReached st.data with
    | true =>
      rw [if_pos hth, Option.some.injEq, Prod.mk.injEq] at h
      obtain ⟨h1, -⟩ := h
      exact ⟨0, by rw [← h1]; rfl⟩
    | false =>
      rw [if_neg (by simp [hth])] at h
      cases hS : st.data.nextAction == "s" with
      | true =>
        simp only [hS, if_true] at h
        cases oracle with
        | nil =>
          rw [Option.some.injEq, Prod.mk.injEq] at h
          obtain ⟨h1, -⟩ := h
          exact ⟨1, by rw [← h1]; rfl⟩
        | cons r rest =>
          cases hC : r.nextAction == "c" with
          | true =>
            simp only [hC, if_true] at h
            cases rest with
            | nil =>
              rw [Option.some.injEq, Prod.mk.injEq] at h
              obtain ⟨h1, -⟩ := h
              exact ⟨2, by rw [← h1]; rfl⟩
            | cons r2 rest2 =>
              dsimp only at h
              cases hr : runLoop updOk n ⟨r2.index + 1, r2.counter + 1, r2⟩ rest2 with
              | none => rw [hr] at h; exact absurd h (by simp)
              | some p =>
                obtain ⟨evs', out'⟩ := p
                rw [hr, Option.some.injEq, Prod.mk.injEq] at h
                obtain ⟨h1, -⟩ := h
                obtain ⟨k, hk⟩ := ih _ _ _ _ hr
                refine ⟨k + 2, ?_⟩
                rw [← h1, requestClocks_append]
                simp only [requestClocks, List.map_cons, List.take_succ_cons]
                rw [hk]
                rfl
          | false =>
            simp only [hC, Bool.false_eq_true, if_false] at h
            cases hr : runLoop updOk n ⟨r.index + 1, r.counter + 1, r⟩ rest with
            | none => rw [hr] at h; exact absurd h (by simp)
            | some p =>
              obtain ⟨evs', out'⟩ := p
              rw [hr, Option.some.injEq, Prod.mk.injEq] at h
              obtain ⟨h1, -⟩ := h
              obtain ⟨k, hk⟩ := ih _ _ _ _ hr
              refine ⟨k + 1, ?_⟩
              rw [← h1]
              simp only [List.append_eq, List.nil_append, List.cons_append,
                requestClocks_append, requestClocks, List.map_cons, List.take_succ_cons]
              rw [hk]
              rfl
      | false =>
        simp only [hS, Bool.false_eq_true, if_false] at h
        cases hC : st.data.nextAction == "c" with
        | true =>
          simp only [hC, if_true] at h
          cases oracle with
          | nil =>
            rw [Option.some.injEq, Prod.mk.injEq] at h
            obtain ⟨h1, -⟩ := h
            exact ⟨1, by rw [← h1]; rfl⟩
          | cons r rest =>
            dsimp only at h
            cases hr : runLoop updOk n ⟨r.index + 1, r.counter + 1, r⟩ rest with
            | none => rw [hr] at h; exact absurd h (by simp)
            | some p =>
              obtain ⟨evs', out'⟩ := p
              rw [hr, Option.some.injEq, Prod.mk.injEq] at h
              obtain ⟨h1, -⟩ := h
              obtain ⟨k, hk⟩ := ih _ _ _ _ hr
              refine ⟨k + 1, ?_⟩
              rw [← h1]
              simp only [List.append_eq, List.nil_append, List.cons_append,
                requestClocks_append, requestClocks, List.map_cons, List.take_succ_cons]
              rw [hk]
              rfl
        | false =>
          simp only [hC, Bool.false_eq_true, if_false] at h
          cases hr : runLoop updOk n st oracle with
          | none => rw [hr] at h; exact absurd h (by simp)
          | some p =>
            obtain ⟨evs', out'⟩ := p
            rw [hr, Option.some.injEq, Prod.mk.injEq] at h
            obtain ⟨h1, -⟩ := h
            obtain ⟨k, hk⟩ := ih _ _ _ _ hr
            exact ⟨k, by rw [← h1]; simpa using hk⟩

/-- Under the remote contract, every reply-derived clock strictly dominates
the starting clock. -/
theorem chainOK_lt (rs : List ResponseData) :
    ∀ (i c : Int), chainOK i c rs →
      ∀ p ∈ rs.map nextClock, i < p.1 ∧ c < p.2 := by
  induction rs with
  | nil => intro i c _ p hp; simp at hp
  | cons r rs ih =>
    intro i c h p hp
    obtain ⟨h1, h2, h3⟩ := h
    rw [List.map_cons, List.mem_cons] at hp
    rcases hp with hp1 | hp2
    · subst hp1
      refine ⟨?_, ?_⟩ <;> dsimp only [nextClock] <;> omega
    · obtain ⟨hl, hr⟩ := ih (r.index + 1) (r.counter + 1) h3 p hp2
      exact ⟨by omega, by omega⟩

/-- Under the remote contract, the clock sequence is strictly increasing. -/
theorem chainOK_pairwise (rs : List ResponseData) :
    ∀ (i c : Int), chainOK i c rs →
      List.Pairwise (fun p q : Int × Int => p.1 < q.1 ∧ p.2 < q.2)
        ((i, c) :: rs.map nextClock) := by
  induction rs with
  | nil => intro i c _; simp
  | cons r rs ih =>
    intro i c h
    obtain ⟨h1, h2, h3⟩ := h
    constructor
    · exact chainOK_lt (r :: rs) i c ⟨h1, h2, h3⟩
    · have := ih (r.index + 1) (r.counter + 1) h3
      simpa [nextClock] using this

/-- C3 (amended): after `DoInit`, every act/advance request carries exactly
the previous reply's index and counter, each incremented by one; and
provided every reply's index/counter is at least that of the request it
answers (the contract the remote enforces by rejecting stale clocks), no
`(index, counter)` pair is ever sent twice within the session. -/
theorem session_clock_threading (updOk : Bool) (n : Nat) (r0 : ResponseData)
    (oracle : List ResponseData) (evs : List Event) (out : Outcome)
    (h : runLoop updOk n ⟨r0.index + 1, r0.counter + 1, r0⟩ oracle = some (evs, out)) :
    (∃ k, requestClocks evs = ((r0 :: oracle).map nextClock).take k)
    ∧ (chainOK (r0.index + 1) (r0.counter + 1) oracle → (requestClocks evs).Nodup) := by
  obtain ⟨k, hk⟩ := runLoop_requestClocks updOk n _ oracle evs out h
  have hk' : requestClocks evs = ((r0 :: oracle).map nextClock).take k := by
    simpa [nextClock] using hk
  refine ⟨⟨k, hk'⟩, fun hchain => ?_⟩
  rw [hk']
  have hpw := chainOK_pairwise oracle (r0.index + 1) (r0.counter + 1) hchain
  have hpw' : List.Pairwise (fun p q : Int × Int => p.1 < q.1 ∧ p.2 < q.2)
      ((r0 :: oracle).map nextClock) := by
    simpa [nextClock] using hpw
  have hpwt := hpw'.sublist (List.take_sublist k _)
  exact hpwt.imp (fun hpq => by rintro rfl; exact lt_irrefl _ hpq.1)

/-- C3 witness: a concrete completed run through one spin and the jackpot
threshold, with the hypotheses of the threading theorem discharged at it. -/
theorem session_clock_threading_witness :
    (∃ k, requestClocks [Event.spin (coinValue 1000) 2 2, Event.updateBalance 100000] =
      (([⟨1, 1, 1000, "s", 0⟩, ⟨2, 2, 100000, "s", 0⟩] :
        List ResponseData).map nextClock).take k)
    ∧ (chainOK 2 2 [⟨2, 2, 100000, "s", 0⟩] →
        (requestClocks [Event.spin (coinValue 1000) 2 2,
          Event.updateBalance 100000]).Nodup) :=
  session_clock_threading true 2 ⟨1, 1, 1000, "s", 0⟩ [⟨2, 2, 100000, "s", 0⟩] _ _ rfl

/-- C3 counterexample to the unconditional no-reuse reading: a successful
run in which a stale reply (`index = counter = 1`, as the parse default can
produce) makes the client send the clock `(2, 2)` in two distinct spin
requests. -/
theorem session_clock_reuse_cex :
    runLoop true 3 ⟨2, 2, ⟨1, 1, 1000, "s", 0⟩⟩
        [⟨1, 1, 1000, "s", 0⟩, ⟨5, 5, 100000, "s", 0⟩] =
      some ([Event.spin (coinValue 1000) 2 2, Event.spin (coinValue 1000) 2 2,
             Event.updateBalance 100000], Outcome.terminated)
    ∧ requestClocks [Event.spin (coinValue 1000) 2 2, Event.spin (coinValue 1000) 2 2,
        Event.updateBalance 100000] = [(2, 2), (2, 2)]
    ∧ ¬ ([((2 : Int), (2 : Int)), (2, 2)]).Nodup :=
  ⟨rfl, rfl, by decide⟩

end DayuSch.Session

namespace DayuSch.Rotator

/-- An in-range lookup with a default is the plain lookup. -/
theorem get?_eq_some_getD (l : List String) :
    ∀ m, m < l.length → l.get? m = some (l.getD m "") := by
  induction l with
  | nil => intro m hm; simp at hm
  | cons a l ih =>
    intro m hm
    cases m with
    | zero => rfl
    | succ m => exact ih m (Nat.succ_lt_succ_iff.mp hm)

/-- `n` calls produce `n` identities. -/
theorem rotatorRun_length (uas : List String) :
    ∀ (n c : Nat), (rotatorRun uas n c).length = n := by
  intro n
  induction n with
  | zero => intro c; rfl
  | succ n ih => intro c; simp [rotatorRun, ih]

/-- The `k`-th identity returned from cursor `c` is the list entry at
`(c + k) mod length`. -/
theorem rotatorRun_get? (uas : List String) (h : 0 < uas.length) :
    ∀ (n c k : Nat), c < uas.length → k < n →
      (rotatorRun uas n c).get? k = uas.get? ((c + k) % uas.length) := by
  intro n
  induction n with
  | zero => intro c k _ hk; exact absurd hk (Nat.not_lt_zero k)
  | succ n ih =>
    intro c k hc hk
    cases k with
    | zero =>
      have hcc : (c + 0) % uas.length = c := by
        rw [Nat.add_zero, Nat.mod_eq_of_lt hc]
      rw [hcc, get?_eq_some_getD uas c hc]
      rfl
    | succ k =>
      have hc' : (c + 1) % uas.length < uas.length := Nat.mod_lt _ h
      have hih := ih ((c + 1) % uas.length) k hc' (Nat.succ_lt_succ_iff.mp hk)
      have harith : c + (k + 1) = c + 1 + k := by omega
      show (rotatorRun uas n ((c + 1) % uas.length)).get? k = _
      rw [hih, Nat.mod_add_mod, harith]

/-- C8: starting from any in-range cursor, `length`-many calls return the
whole identity list rotated to that cursor — so each entry is returned
exactly once (the output is a permutation of the list), in the fixed cyclic
order — and one further call returns the same identity as the first call. -/
theorem rotator_round_robin (uas : List String) (c : Nat)
    (h : 0 < uas.length) (hc : c < uas.length) :
    rotatorRun uas uas.length c = uas.rotate c
    ∧ (rotatorRun uas uas.length c).Perm uas
    ∧ (rotatorRun uas (uas.length + 1) c).get? uas.length =
        (rotatorRun uas (uas.length + 1) c).get? 0 := by
  have hrot : rotatorRun uas uas.length c = uas.rotate c := by
    apply List.ext_get?_iff.mpr
    intro k
    by_cases hk : k < uas.length
    · rw [rotatorRun_get? uas h uas.length c k hc hk, List.get?_rotate hk,
        Nat.add_comm]
    · have h1 : (rotatorRun uas uas.length c).get? k = none := by
        rw [List.get?_eq_none, rotatorRun_length]
        omega
      have h2 : (uas.rotate c).get? k = none := by
        rw [List.get?_eq_none, List.length_rotate]
        omega
      rw [h1, h2]
  refine ⟨hrot, by rw [hrot]; exact List.rotate_perm uas c, ?_⟩
  rw [rotatorRun_get? uas h (uas.length + 1) c uas.length hc (by omega),
    rotatorRun_get? uas h (uas.length + 1) c 0 hc (by omega),
    Nat.add_mod_right, Nat.add_zero, Nat.mod_eq_of_lt hc]

/-- C8 witness: a three-identity list from cursor 1. -/
theorem rotator_round_robin_witness :
    rotatorRun ["a", "b", "c"] 3 1 = (["a", "b", "c"]).rotate 1
    ∧ (rotatorRun ["a", "b", "c"] 3 1).Perm ["a", "b", "c"]
    ∧ (rotatorRun ["a", "b", "c"] 4 1).get? 3 = (rotatorRun ["a", "b", "c"] 4 1).get? 0 :=
  rotator_round_robin ["a", "b", "c"] 1 (by decide) (by decide)

end DayuSch.Rotator

namespace DayuSch.Worker

/-- C6: failure domains are per unit and per worker.  Changing one unit's
session behaviour (in particular making any of its requests fail) leaves
every other unit's processing result unchanged and leaves the worker's
quarantine classification unchanged (it depends only on the batch-reported
statuses); moreover every unit of the batch is processed. -/
theorem unit_isolation (units units' : List UnitWork) (j : Nat)
    (hoth : ∀ i, i ≠ j → units'.get? i = units.get? i)
    (hstat : ∀ i, (units'.get? i).map (fun u => u.status) =
      (units.get? i).map (fun u => u.status)) :
    (∀ i, i ≠ j →
      ((processWorker units').1).get? i = ((processWorker units).1).get? i)
    ∧ (processWorker units').2 = (processWorker units).2
    ∧ ((processWorker units).1).length = units.length
    ∧ (∀ i u, units.get? i = some u →
        ((processWorker units).1).get? i = some (processUnit u)) := by
  have hmaps : units'.map (fun u => u.status) = units.map (fun u => u.status) := by
    apply List.ext_get?_iff.mpr
    intro i
    rw [List.get?_map, List.get?_map]
    exact hstat i
  refine ⟨?_, ?_, by simp [processWorker], ?_⟩
  · intro i hij
    show ((units'.map processUnit).get? i) = ((units.map processUnit).get? i)
    rw [List.get?_map, List.get?_map, hoth i hij]
  · show shouldBlockProxy false (units'.map (fun u => u.status)) =
      shouldBlockProxy false (units.map (fun u => u.status))
    rw [hmaps]
  · intro i u hu
    show ((units.map processUnit).get? i) = some (processUnit u)
    rw [List.get?_map, hu]
    rfl

/-- C6 witness: a two-unit batch in which the second unit's session is made
to fail before the `ACTING` loop; the first unit's result and the
classification are unchanged. -/
theorem unit_isolation_witness :
    (∀ i, i ≠ 1 →
      ((processWorker [⟨true, none⟩,
         ⟨false, some ⟨none, [], true, 1⟩⟩]).1).get? i =
      ((processWorker [⟨true, none⟩,
         ⟨false, some ⟨some ⟨1, 1, 1000, "s", 0⟩, [], true, 1⟩⟩]).1).get? i)
    ∧ (processWorker [⟨true, none⟩, ⟨false, some ⟨none, [], true, 1⟩⟩]).2 =
      (processWorker [⟨true, none⟩,
        ⟨false, some ⟨some ⟨1, 1, 1000, "s", 0⟩, [], true, 1⟩⟩]).2
    ∧ ((processWorker [⟨true, none⟩,
        ⟨false, some ⟨some ⟨1, 1, 1000, "s", 0⟩, [], true, 1⟩⟩]).1).length =
      ([⟨true, none⟩,
        ⟨false, some ⟨some ⟨1, 1, 1000, "s", 0⟩, [], true, 1⟩⟩] : List UnitWork).length
    ∧ (∀ i u, ([⟨true, none⟩,
        ⟨false, some ⟨some ⟨1, 1, 1000, "s", 0⟩, [], true, 1⟩⟩] : List UnitWork).get? i =
          some u →
        ((processWorker [⟨true, none⟩,
          ⟨false, some ⟨some ⟨1, 1, 1000, "s", 0⟩, [], true, 1⟩⟩]).1).get? i =
          some (processUnit u)) :=
  unit_isolation
    [⟨true, none⟩, ⟨false, some ⟨some ⟨1, 1, 1000, "s", 0⟩, [], true, 1⟩⟩]
    [⟨true, none⟩, ⟨false, some ⟨none, [], true, 1⟩⟩] 1
    (fun i hij =>
      match i, hij with
      | 0, _ => rfl
      | 1, hij => absurd rfl hij
      | (_ + 2), _ => rfl)
    (fun i =>
      match i with
      | 0 => rfl
      | 1 => rfl
      | (_ + 2) => rfl)

end DayuSch.Worker

namespace DayuSch.Protocol

/-- C9: the establish step does not follow redirects; a missing redirect
`location` yields an empty session with no error (the unit is skipped, not
failed); a present redirect yields the session whose key is the `mgckey`
query parameter of the target; transport errors propagate as errors. -/
theorem load_session_spec :
    loadSessionFollowsRedirects = false
    ∧ (∀ r : HttpResponse, r.location = none →
        loadSession (Except.ok r) = Except.ok none)
    ∧ (∀ (r : HttpResponse) (u : Url), r.location = some u →
        loadSession (Except.ok r) = Except.ok (some ⟨u, getQueryParam u "mgckey"⟩))
    ∧ (∀ e : String, loadSession (Except.error e) = Except.error e) := by
  refine ⟨rfl, ?_, ?_, fun e => rfl⟩
  · rintro ⟨loc⟩ hr
    cases hr
    rfl
  · rintro ⟨loc⟩ u hr
    cases hr
    rfl

/-- C9 witness: a response without a redirect is skipped, one with a
redirect yields the `mgckey` value of its target. -/
theorem load_session_spec_witness :
    loadSession (Except.ok ⟨none⟩) = Except.ok none
    ∧ loadSession (Except.ok ⟨some ⟨"demogamesfree.example", [("mgckey", "K1")]⟩⟩) =
        Except.ok (some ⟨⟨"demogamesfree.example", [("mgckey", "K1")]⟩, "K1"⟩) :=
  ⟨load_session_spec.2.1 ⟨none⟩ rfl,
   load_session_spec.2.2.1 ⟨some ⟨"demogamesfree.example", [("mgckey", "K1")]⟩⟩
     ⟨"demogamesfree.example", [("mgckey", "K1")]⟩ rfl⟩

/-- C10: `DoInit` always posts `index=1` and `counter=1`, whatever the
session key and game symbol are — every re-initialised session restarts its
logical clock at 1, so two sessions always share these initial clock
values. -/
theorem do_init_clock :
    (∀ mgckey symbol : String,
      formLookup (doInitForm mgckey symbol) "index" = some "1")
    ∧ (∀ mgckey symbol : String,
      formLookup (doInitForm mgckey symbol) "counter" = some "1")
    ∧ (∀ m1 s1 m2 s2 : String,
      formLookup (doInitForm m1 s1) "index" = formLookup (doInitForm m2 s2) "index"
      ∧ formLookup (doInitForm m1 s1) "counter" =
          formLookup (doInitForm m2 s2) "counter") :=
  ⟨fun _ _ => rfl, fun _ _ => rfl, fun _ _ _ _ => ⟨rfl, rfl⟩⟩

/-- C10 witness: concrete key and symbol. -/
theorem do_init_clock_witness :
    formLookup (doInitForm "K1" "vs20olympgate") "index" = some "1"
    ∧ formLookup (doInitForm "K1" "vs20olympgate") "counter" = some "1" :=
  ⟨do_init_clock.1 "K1" "vs20olympgate", do_init_clock.2.1 "K1" "vs20olympgate"⟩

end DayuSch.Protocol

namespace DayuSch.Cancel

/-- C5 counterexample: not every blocking wait of `Run` observes the
cancellation signal — the worker-level permit wait runs on a background
context, the 32 ms pacing sleep is a plain sleep, and the worker spawn loop
has no shutdown check. -/
theorem cancellation_gaps_cex :
    runSuspensionPoints.all observesCancellation = false
    ∧ (runSuspensionPoints.filter
        (fun p => !(observesCancellation p))).map SuspensionPoint.name =
      ["workerSpawnLoop", "workerSemAcquire", "stepPacingSleep"] :=
  ⟨rfl, rfl⟩

/-- C5 (amended): the round-loop head, the backoff and inter-round delays,
all network calls and the per-unit permit wait observe the cancellation
signal, as do the shutdown checks inside the unit goroutine and the
`ACTING` loop; the remaining points (worker spawn loop, worker-level permit
wait on a background context, 32 ms pacing sleep) do not, though the
worker-level permit wait can never block indefinitely because the spawn
loop never creates more workers than the semaphore has permits. -/
theorem cancellation_structure :
    (runSuspensionPoints.filter observesCancellation).map SuspensionPoint.name =
      ["roundLoopDoneCheck", "getProxies", "proxyErrorBackoffDelay",
       "noProxiesBackoffDelay", "batchClaim", "unitDoneCheck",
       "responseSemAcquire", "sessionProtocolCalls", "actingLoopDoneCheck",
       "updateBalance", "blockProxy", "interRoundDelay"]
    ∧ (runSuspensionPoints.filter
        (fun p => !(observesCancellation p))).map SuspensionPoint.name =
      ["workerSpawnLoop", "workerSemAcquire", "stepPacingSleep"]
    ∧ (∀ numProxies maxConcurrent : Nat,
        workersSpawned numProxies maxConcurrent ≤ workerSemPermits maxConcurrent) :=
  ⟨rfl, rfl, fun a b => Nat.min_le_right a b⟩

/-- C5 witness: the permit bound at a concrete round shape. -/
theorem cancellation_structure_witness :
    workersSpawned 5 3 ≤ workerSemPermits 3 :=
  cancellation_structure.2.2 5 3

end DayuSch.Cancel
